import Mathlib

/-!
Verification of the pygame MVC engine (`src/engine.py`): an event bus
(`EventManager`) with weak-reference listener registry, and a fixed-rate
tick loop (`TickController.Run`) that drives Update/Draw cycles and posts
a cleanup event after shutdown.

Modelling notes.
* Listener identities are `Nat`; the `WeakKeyDictionary` of
  `EventManager.__init__` maps listeners to the constant `1`, so its
  observable state is the list of its keys (insertion-ordered,
  duplicate-free).  Weakness is modelled by an external liveness map
  `live : Nat → Bool`: a key whose referent has been collected no longer
  appears among `keys()` and is never dispatched to.
* `self.listeners.keys()` (Python 2 `weakref.WeakKeyDictionary.keys`)
  builds and returns a fresh list of strong references to the live keys,
  so `Post` iterates over a snapshot taken at entry; mutations performed
  by a listener's `Notify` during the broadcast affect the manager state
  but not the ongoing iteration.  `Post` therefore takes the behaviour of
  each listener's `Notify` as a function mutating the manager, and also
  returns the chronological list of `Notify(event)` calls it made.
* The run loop `while self.running: ...` may diverge, so it is embedded
  with explicit fuel, returning `none` when the fuel is exhausted while
  the loop is still running; `some` results correspond exactly to the
  terminating executions.
-/

namespace Engine

/-- The closed set of event classes of engine.py: `Event` (the generic
superclass), `DrawEvent`, `UpdateEvent`, `QuitEvent`, `QuitCleanupEvent`.
Each carries only its kind; `isinstance` dispatch becomes tag equality. -/
inductive Event where
  | generic
  | draw
  | update
  | quit
  | quitCleanup
  deriving DecidableEq

/-- The `name` attribute set by each event class's `__init__`. -/
def Event.name : Event → String
  | .generic => "Generic Event"
  | .draw => "Draw Event"
  | .update => "Update Event"
  | .quit => "Quit Event"
  | .quitCleanup => "Cleanup Event"

/-- `EventManager.__init__`: `self.listeners = WeakKeyDictionary()`.
All stored values are `1`, so the state is the key list (kept
duplicate-free, as dict keys are). -/
structure EventManager where
  listeners : List Nat
  deriving DecidableEq

/-- A fresh manager: the empty registry. -/
def EventManager.init : EventManager := ⟨[]⟩

/-- `self.listeners.keys()`: the fresh list of currently live keys that
Python 2's `WeakKeyDictionary.keys` returns (dead referents excluded). -/
def EventManager.keys (m : EventManager) (live : Nat → Bool) : List Nat :=
  m.listeners.filter live

/-- `EventManager.RegisterListener`: `self.listeners[listener] = 1`.
Assigning to an existing key leaves the key set unchanged (the value is
already `1`); a new key is appended. -/
def EventManager.RegisterListener (m : EventManager) (l : Nat) : EventManager :=
  if l ∈ m.listeners then m else ⟨m.listeners ++ [l]⟩

/-- `EventManager.UnregisterListener`: delete the key if
`listener in self.listeners.keys()`, otherwise do nothing. -/
def EventManager.UnregisterListener (m : EventManager) (live : Nat → Bool)
    (l : Nat) : EventManager :=
  if l ∈ m.keys live then ⟨m.listeners.erase l⟩ else m

/-- `EventManager.Post`: `for listener in self.listeners.keys():
listener.Notify(event)`.  The iteration runs over the snapshot list
returned by `keys()`; each listener's `Notify` may mutate the manager
(`notify l` maps the manager state across listener `l`'s `Notify` call),
and the chronological list of `Notify` invocations `(listener, event)`
is returned alongside the final manager state. -/
def EventManager.Post (m : EventManager) (live : Nat → Bool)
    (notify : Nat → EventManager → EventManager) (e : Event) :
    EventManager × List (Nat × Event) :=
  (m.keys live).foldl (fun acc l => (notify l acc.1, acc.2 ++ [(l, e)])) (m, [])

lemma post_foldl_calls (notify : Nat → EventManager → EventManager) (e : Event) :
    ∀ (xs : List Nat) (st : EventManager) (cs : List (Nat × Event)),
      (xs.foldl (fun acc l => (notify l acc.1, acc.2 ++ [(l, e)])) (st, cs)).2
        = cs ++ xs.map (fun l => (l, e))
  | [], st, cs => by simp
  | x :: xs, st, cs => by
      simpa using post_foldl_calls notify e xs (notify x st) (cs ++ [(x, e)])

/-- The calls a broadcast makes are exactly one `Notify(e)` per snapshot
entry, in snapshot order, whatever the listeners' `Notify` bodies do to
the registry. -/
lemma post_calls_eq (m : EventManager) (live : Nat → Bool)
    (notify : Nat → EventManager → EventManager) (e : Event) :
    (m.Post live notify e).2 = (m.keys live).map (fun l => (l, e)) := by
  simpa using post_foldl_calls notify e (m.keys live) m []

lemma count_pair_map (xs : List Nat) (l : Nat) (e : Event) :
    ((xs.map fun x => (x, e)).count (l, e)) = xs.count l := by
  induction xs with
  | nil => simp
  | cons x xs ih => simp [List.count_cons, ih]

/-- A live, registered listener is called exactly once per broadcast. -/
lemma count_call_eq_one (m : EventManager) (live : Nat → Bool)
    (notify : Nat → EventManager → EventManager) (e : Event) (l : Nat)
    (hnd : m.listeners.Nodup) (hlive : live l = true) (hreg : l ∈ m.listeners) :
    (m.Post live notify e).2.count (l, e) = 1 := by
  rw [post_calls_eq, count_pair_map]
  have hmem : l ∈ m.keys live := List.mem_filter.mpr ⟨hreg, hlive⟩
  exact List.count_eq_one_of_mem (hnd.filter live) hmem

/-- C1: for every event `e` and every listener `l` registered with the bus
and still live when `Post e` is called, the broadcast synchronously invokes
`l.Notify e` exactly once (never zero times, never more than once), and
every `Notify` call of that broadcast carries the same event `e`. -/
theorem post_notifies_each_live_listener_once (m : EventManager)
    (live : Nat → Bool) (notify : Nat → EventManager → EventManager)
    (e : Event) (l : Nat)
    (hnd : m.listeners.Nodup) (hlive : live l = true) (hreg : l ∈ m.listeners) :
    (m.Post live notify e).2.count (l, e) = 1 ∧
    ∀ c ∈ (m.Post live notify e).2, c.2 = e := by
  refine ⟨count_call_eq_one m live notify e l hnd hlive hreg, ?_⟩
  intro c hc
  rw [post_calls_eq] at hc
  obtain ⟨x, _, rfl⟩ := List.mem_map.mp hc
  rfl

/-- Concrete instance of C1: one registered live listener `7`, identity
`Notify` bodies, a Draw broadcast. -/
theorem post_notifies_each_live_listener_once_witness :
    ((EventManager.Post ⟨[7]⟩ (fun _ => true) (fun _ s => s) .draw).2.count
        (7, Event.draw) = 1) ∧
    ∀ c ∈ (EventManager.Post ⟨[7]⟩ (fun _ => true) (fun _ s => s) .draw).2,
      c.2 = Event.draw :=
  post_notifies_each_live_listener_once ⟨[7]⟩ (fun _ => true) (fun _ s => s)
    .draw 7 (by decide) rfl (by decide)

/-- C5: `Post` iterates a snapshot of the listener set taken at entry:
whatever registry mutations the listeners' `Notify` bodies perform during
the broadcast (registrations, unregistrations — `notify` is arbitrary),
the sequence of `Notify` calls is exactly one call per listener that was
registered and live at the start, in snapshot order — nothing skipped, no
corruption, and `Post` is a total function (no error). -/
theorem post_snapshot_semantics (m : EventManager) (live : Nat → Bool)
    (notify : Nat → EventManager → EventManager) (e : Event) :
    (m.Post live notify e).2 = (m.keys live).map (fun l => (l, e)) :=
  post_calls_eq m live notify e

/-- C6: registering an already-registered listener is a no-op (the
registry is observably unchanged, no error), and a subsequent broadcast
still calls that listener exactly once, never twice. -/
theorem register_listener_idempotent (m : EventManager) (l : Nat)
    (live : Nat → Bool) (notify : Nat → EventManager → EventManager) (e : Event)
    (hreg : l ∈ m.listeners) (hnd : m.listeners.Nodup) (hlive : live l = true) :
    m.RegisterListener l = m ∧
    ((m.RegisterListener l).Post live notify e).2.count (l, e) = 1 := by
  have hid : m.RegisterListener l = m := by
    simp [EventManager.RegisterListener, hreg]
  refine ⟨hid, ?_⟩
  rw [hid]
  exact count_call_eq_one m live notify e l hnd hlive hreg

/-- Concrete instance of C6: re-registering listener `3` on `⟨[3]⟩`. -/
theorem register_listener_idempotent_witness :
    EventManager.RegisterListener ⟨[3]⟩ 3 = (⟨[3]⟩ : EventManager) ∧
    ((EventManager.RegisterListener ⟨[3]⟩ 3).Post (fun _ => true)
        (fun _ s => s) .update).2.count (3, Event.update) = 1 :=
  register_listener_idempotent ⟨[3]⟩ 3 (fun _ => true) (fun _ s => s) .update
    (by decide) (by decide) rfl

/-- C7: unregistration is total: removing an absent listener is a no-op
that succeeds; after `UnregisterListener l` no broadcast call goes to `l`;
and broadcasting on a fresh (empty) manager performs no calls and raises
no error. -/
theorem unregister_total_no_error (m : EventManager) (l : Nat)
    (live : Nat → Bool) (notify : Nat → EventManager → EventManager) (e : Event)
    (hnd : m.listeners.Nodup) :
    (l ∉ m.keys live → m.UnregisterListener live l = m) ∧
    (∀ c ∈ ((m.UnregisterListener live l).Post live notify e).2, c.1 ≠ l) ∧
    (EventManager.init.Post live notify e).2 = [] := by
  refine ⟨?_, ?_, ?_⟩
  · intro habs
    simp [EventManager.UnregisterListener, habs]
  · intro c hc
    rw [post_calls_eq] at hc
    obtain ⟨x, hx, rfl⟩ := List.mem_map.mp hc
    intro hxl
    have hxl' : x = l := hxl
    rw [hxl'] at hx
    by_cases hmem : l ∈ m.keys live
    · rw [EventManager.UnregisterListener, if_pos hmem] at hx
      have hx' : l ∈ m.listeners.erase l :=
        List.mem_of_mem_filter (by simpa [EventManager.keys] using hx)
      exact absurd ((hnd.mem_erase_iff).mp hx').1 (by simp)
    · rw [EventManager.UnregisterListener, if_neg hmem] at hx
      exact hmem hx
  · rw [post_calls_eq]
    rfl

/-- Concrete instance of C7: unregistering the absent listener `5` is a
no-op; after unregistering `2` from `⟨[2]⟩`, a broadcast makes no call to
`2`; broadcasting on the empty manager makes no calls. -/
theorem unregister_total_no_error_witness :
    (EventManager.UnregisterListener ⟨[2]⟩ (fun _ => true) 5
        = (⟨[2]⟩ : EventManager)) ∧
    (∀ c ∈ ((EventManager.UnregisterListener ⟨[2]⟩ (fun _ => true) 2).Post
        (fun _ => true) (fun _ s => s) .draw).2, c.1 ≠ 2) ∧
    (EventManager.init.Post (fun _ => true) (fun _ s => s) .draw).2 = [] :=
  ⟨(unregister_total_no_error ⟨[2]⟩ 5 (fun _ => true) (fun _ s => s) .draw
      (by decide)).1 (by decide),
   (unregister_total_no_error ⟨[2]⟩ 2 (fun _ => true) (fun _ s => s) .draw
      (by decide)).2.1,
   (unregister_total_no_error ⟨[2]⟩ 2 (fun _ => true) (fun _ s => s) .draw
      (by decide)).2.2⟩

/-- C9: the registry holds only weak references: a listener whose referent
has been collected (`live l = false`) is absent from the `keys()` snapshot
— it silently disappeared from dispatch — and no broadcast call is made to
it; `Post` stays total (no error).  Liveness is an external parameter the
registry never influences: registration cannot keep a listener alive. -/
theorem dead_listener_silently_dropped (m : EventManager) (l : Nat)
    (live : Nat → Bool) (notify : Nat → EventManager → EventManager) (e : Event)
    (hdead : live l = false) :
    l ∉ m.keys live ∧
    ∀ c ∈ (m.Post live notify e).2, c.1 ≠ l := by
  have hk : l ∉ m.keys live := by
    intro hmem
    have := (List.mem_filter.mp hmem).2
    rw [hdead] at this
    exact Bool.false_ne_true this
  refine ⟨hk, ?_⟩
  intro c hc
  rw [post_calls_eq] at hc
  obtain ⟨x, hx, rfl⟩ := List.mem_map.mp hc
  intro hxl
  subst hxl
  exact hk hx

/-- Concrete instance of C9: listener `4` is registered but dead; a
broadcast over `⟨[4]⟩` never calls it. -/
theorem dead_listener_silently_dropped_witness :
    (4 ∉ EventManager.keys ⟨[4]⟩ (fun _ => false)) ∧
    ∀ c ∈ (EventManager.Post ⟨[4]⟩ (fun _ => false) (fun _ s => s) .draw).2,
      c.1 ≠ 4 :=
  dead_listener_silently_dropped ⟨[4]⟩ 4 (fun _ => false) (fun _ s => s)
    .draw rfl

/-!
The run-loop layer embeds the composed system of `main()`: one bus with
the three listeners `pygamec : PygameController`, `spinner :
TickController`, `pygamev : PygameView`, registered in that order and all
alive for the whole run.  Only the spinner has engine-visible state (its
`running` flag); the controller reads pygame's event queue on Update and
posts one `QuitEvent` per `QUIT`-typed entry, each as a nested synchronous
broadcast; the view's reactions (repainting, `pygame.quit()`) are external
effects.  Dispatch is recorded as a trace of actions: each broadcast's
start, each `Notify(listener, event)` call, and each `clock.tick(30)`. -/

/-- The `type` field of a pygame event as tested by `PygameController`:
either `QUIT` or anything else. -/
inductive PygameEvt where
  | quitType
  | otherType
  deriving DecidableEq

/-- The three listeners constructed and registered by `main()`, in
registration order. -/
inductive LId where
  | pygamec
  | spinner
  | pygamev
  deriving DecidableEq

/-- One observable step of the composed system. -/
inductive Action where
  | broadcast : Event → Action
  | notify : LId → Event → Action
  | clockTick : Nat → Action
  deriving DecidableEq

/-- `TickController`'s engine-visible state: its `running` flag. -/
structure TickController where
  running : Bool
  deriving DecidableEq

/-- `TickController.__init__` sets `self.running = True`. -/
def TickController.initState : TickController := ⟨true⟩

/-- `TickController.Notify`: `if isinstance(event, QuitEvent):
self.running = False`. -/
def TickController.Notify (s : TickController) (e : Event) : TickController :=
  if e = .quit then ⟨false⟩ else s

/-- The number of `Post(QuitEvent())` calls `PygameController.Notify`
makes on an Update: one per `QUIT`-typed entry of `pygame.event.get()`. -/
def quitPosts : List PygameEvt → Nat
  | [] => 0
  | ev :: rest => (if ev = .quitType then 1 else 0) + quitPosts rest

/-- A broadcast during which no listener posts a nested event (every event
except Update: `PygameController.Notify` polls only on Update, and neither
the spinner nor the view ever posts).  Listeners are notified in
registration order; only the spinner's `Notify` touches engine state. -/
def broadcastLeaf (s : TickController) (e : Event) : TickController × List Action :=
  (s.Notify e, [.broadcast e, .notify .pygamec e, .notify .spinner e, .notify .pygamev e])

/-- The successive nested `Post(QuitEvent())` broadcasts made from inside
`PygameController.Notify`'s polling loop. -/
def postQuits : Nat → TickController → TickController × List Action
  | 0, s => (s, [])
  | n + 1, s =>
      ((postQuits n (broadcastLeaf s .quit).1).1,
        (broadcastLeaf s .quit).2 ++ (postQuits n (broadcastLeaf s .quit).1).2)

/-- `EventManager.Post` as instantiated in the running system.  An Update
broadcast reaches `pygamec` first, whose `Notify` performs the nested Quit
broadcasts before the Update dispatch continues to the spinner and the
view; every other event is a leaf broadcast. -/
def SystemPost (pending : List PygameEvt) (s : TickController) (e : Event) :
    TickController × List Action :=
  match e with
  | .update =>
      ((postQuits (quitPosts pending) s).1.Notify .update,
        [.broadcast .update, .notify .pygamec .update]
          ++ (postQuits (quitPosts pending) s).2
          ++ [.notify .spinner .update, .notify .pygamev .update])
  | e => broadcastLeaf s e

/-- `TickController.Run`: `while self.running:` post Update, post Draw,
`clock.tick(30)`, post Draw, `clock.tick(30)`; after the loop, post
`QuitCleanupEvent`.  `queue i` is the content of pygame's event queue when
iteration `i` polls it; the explicit fuel bounds the number of loop
iterations, `none` meaning the loop was still running when it ran out, so
`some` results are exactly the terminating executions. -/
def TickController.Run (queue : Nat → List PygameEvt) :
    Nat → Nat → TickController → Option (TickController × List Action)
  | 0, i, s =>
      if s.running then none
      else some (SystemPost (queue i) s .quitCleanup)
  | fuel + 1, i, s =>
      if s.running then
        let u := SystemPost (queue i) s .update
        let d1 := SystemPost (queue i) u.1 .draw
        let d2 := SystemPost (queue i) d1.1 .draw
        match TickController.Run queue fuel (i + 1) d2.1 with
        | none => none
        | some r =>
            some (r.1, u.2 ++ d1.2 ++ [.clockTick 30] ++ d2.2 ++ [.clockTick 30] ++ r.2)
      else some (SystemPost (queue i) s .quitCleanup)

/-- Trace of one nested Quit broadcast. -/
def quitTrace : List Action :=
  [.broadcast .quit, .notify .pygamec .quit, .notify .spinner .quit, .notify .pygamev .quit]

/-- Trace of one Update broadcast given the pending pygame events. -/
def updateTrace (pending : List PygameEvt) : List Action :=
  [.broadcast .update, .notify .pygamec .update]
    ++ List.flatten (List.replicate (quitPosts pending) quitTrace)
    ++ [.notify .spinner .update, .notify .pygamev .update]

/-- Trace of one Draw broadcast. -/
def drawTrace : List Action :=
  [.broadcast .draw, .notify .pygamec .draw, .notify .spinner .draw, .notify .pygamev .draw]

/-- Trace of the final QuitCleanup broadcast. -/
def cleanupTrace : List Action :=
  [.broadcast .quitCleanup, .notify .pygamec .quitCleanup,
    .notify .spinner .quitCleanup, .notify .pygamev .quitCleanup]

/-- Trace of one full loop iteration. -/
def bodyTrace (pending : List PygameEvt) : List Action :=
  updateTrace pending ++ drawTrace ++ [.clockTick 30] ++ drawTrace ++ [.clockTick 30]

/-- Trace of iterations `i, i+1, …, i+n` of the loop. -/
def blocksTrace (queue : Nat → List PygameEvt) (i : Nat) : Nat → List Action
  | 0 => bodyTrace (queue i)
  | n + 1 => bodyTrace (queue i) ++ blocksTrace queue (i + 1) n

lemma broadcastLeaf_quit (s : TickController) :
    broadcastLeaf s .quit = (⟨false⟩, quitTrace) := rfl

lemma postQuits_trace : ∀ (n : Nat) (s : TickController),
    (postQuits n s).2 = List.flatten (List.replicate n quitTrace)
  | 0, s => rfl
  | n + 1, s => by
      simp [postQuits, broadcastLeaf_quit, postQuits_trace n, List.replicate_succ]

lemma postQuits_state : ∀ (n : Nat) (s : TickController),
    (postQuits n s).1 = if n = 0 then s else ⟨false⟩
  | 0, s => rfl
  | n + 1, s => by
      have h := postQuits_state n (⟨false⟩ : TickController)
      rcases n with _ | m
      · rfl
      · simpa [postQuits, broadcastLeaf_quit] using h

lemma sysPost_update_trace (p : List PygameEvt) (s : TickController) :
    (SystemPost p s .update).2 = updateTrace p := by
  simp [SystemPost, updateTrace, postQuits_trace]

lemma notify_update_id (s : TickController) : s.Notify .update = s := rfl

lemma sysPost_update_state (p : List PygameEvt) (s : TickController) :
    (SystemPost p s .update).1 = if quitPosts p = 0 then s else ⟨false⟩ := by
  simp [SystemPost, notify_update_id, postQuits_state]

lemma sysPost_draw (p : List PygameEvt) (s : TickController) :
    SystemPost p s .draw = (s, drawTrace) := rfl

lemma sysPost_cleanup (p : List PygameEvt) (s : TickController) :
    SystemPost p s .quitCleanup = (s, cleanupTrace) := rfl

/-- A stopped loop makes no further Update/Draw posts: it immediately
broadcasts QuitCleanup and leaves the state untouched. -/
lemma run_stopped (queue : Nat → List PygameEvt) :
    ∀ (fuel i : Nat) (s : TickController), s.running = false →
      TickController.Run queue fuel i s = some (s, cleanupTrace)
  | 0, i, s, h => by simp [TickController.Run, h, sysPost_cleanup]
  | fuel + 1, i, s, h => by simp [TickController.Run, h, sysPost_cleanup]

/-- Characterisation of every terminating run started in the running
state: there is a first iteration `i + n` whose poll finds a QUIT event;
the trace consists of the `n + 1` full iteration bodies followed by the
cleanup broadcast, and the final state is stopped. -/
lemma run_char (queue : Nat → List PygameEvt) :
    ∀ (fuel i : Nat) (s sf : TickController) (tr : List Action),
      s.running = true →
      TickController.Run queue fuel i s = some (sf, tr) →
      ∃ n, (∀ j, j < n → quitPosts (queue (i + j)) = 0) ∧
        0 < quitPosts (queue (i + n)) ∧
        sf.running = false ∧
        tr = blocksTrace queue i n ++ cleanupTrace
  | 0, i, s, sf, tr, hrun, h => by
      simp [TickController.Run, hrun] at h
  | fuel + 1, i, s, sf, tr, hrun, h => by
      by_cases hq : quitPosts (queue i) = 0
      · simp only [TickController.Run, hrun, if_true,
          sysPost_update_state, sysPost_update_trace, sysPost_draw, hq,
          if_pos] at h
        cases hrec : TickController.Run queue fuel (i + 1) s with
        | none => rw [hrec] at h; exact absurd h (by simp)
        | some r =>
          obtain ⟨rs, rt⟩ := r
          rw [hrec] at h
          simp only [Option.some.injEq, Prod.mk.injEq] at h
          obtain ⟨hsf, htr⟩ := h
          obtain ⟨n, hn1, hn2, hn3, htr'⟩ :=
            run_char queue fuel (i + 1) s rs rt hrun hrec
          refine ⟨n + 1, ?_, ?_, ?_, ?_⟩
          · intro j hj
            rcases j with _ | j'
            · simpa using hq
            · have hj' := hn1 j' (by omega)
              simpa [show i + 1 + j' = i + (j' + 1) by omega] using hj'
          · simpa [show i + 1 + n = i + (n + 1) by omega] using hn2
          · rw [← hsf]; exact hn3
          · rw [← htr, htr', blocksTrace]
            simp [bodyTrace, List.append_assoc]
      · simp only [TickController.Run, hrun, if_true,
          sysPost_update_state, sysPost_update_trace, sysPost_draw, hq,
          if_false] at h
        rw [run_stopped queue fuel (i + 1) ⟨false⟩ rfl] at h
        simp only [Option.some.injEq, Prod.mk.injEq] at h
        obtain ⟨hsf, htr⟩ := h
        refine ⟨0, by omega, ?_, ?_, ?_⟩
        · simpa using Nat.pos_of_ne_zero hq
        · rw [← hsf]
        · rw [← htr, blocksTrace]
          simp [bodyTrace, List.append_assoc]

lemma count_flatten_replicate (n : Nat) (xs : List Action) (a : Action) :
    (List.flatten (List.replicate n xs)).count a = n * xs.count a := by
  induction n with
  | zero => simp
  | succ n ih =>
      rw [List.replicate_succ, List.flatten_cons, List.count_append, ih,
        Nat.succ_mul]
      omega

/-- The count of any action missing from `quitTrace` does not depend on
the pending pygame events. -/
lemma count_bodyTrace_eq (p : List PygameEvt) (a : Action)
    (hq : quitTrace.count a = 0) :
    (bodyTrace p).count a = (bodyTrace []).count a := by
  simp [bodyTrace, updateTrace, List.count_append, List.count_cons,
    count_flatten_replicate, hq]

lemma count_bodyTrace_update (p : List PygameEvt) :
    (bodyTrace p).count (Action.broadcast .update) = 1 := by
  rw [count_bodyTrace_eq p _ (by decide)]; decide

lemma count_bodyTrace_draw (p : List PygameEvt) :
    (bodyTrace p).count (Action.broadcast .draw) = 2 := by
  rw [count_bodyTrace_eq p _ (by decide)]; decide

lemma count_bodyTrace_clockTick (p : List PygameEvt) :
    (bodyTrace p).count (Action.clockTick 30) = 2 := by
  rw [count_bodyTrace_eq p _ (by decide)]; decide

lemma count_bodyTrace_cleanup (p : List PygameEvt) :
    (bodyTrace p).count (Action.broadcast .quitCleanup) = 0 := by
  rw [count_bodyTrace_eq p _ (by decide)]; decide

lemma count_blocksTrace (queue : Nat → List PygameEvt) (a : Action) (c : Nat)
    (hbody : ∀ p, (bodyTrace p).count a = c) :
    ∀ (n i : Nat), (blocksTrace queue i n).count a = (n + 1) * c
  | 0, i => by simpa using hbody (queue i)
  | n + 1, i => by
      rw [blocksTrace, List.count_append, hbody,
        count_blocksTrace queue a c hbody n (i + 1)]
      ring

/-- C2: while `running` holds, each loop iteration posts one Update, then
one Draw, then advances the clock (`clock.tick 30`), then a second Draw,
then advances the clock again (this per-iteration shape is `bodyTrace`,
iterated by `blocksTrace`); hence over the `n + 1` completed iterations of
a terminating run the trace carries exactly `n + 1` Update broadcasts,
`2 * (n + 1)` Draw broadcasts and `2 * (n + 1)` clock advances. -/
theorem run_loop_cadence (queue : Nat → List PygameEvt) (fuel : Nat)
    (sf : TickController) (tr : List Action)
    (h : TickController.Run queue fuel 0 TickController.initState = some (sf, tr)) :
    ∃ n, tr = blocksTrace queue 0 n ++ cleanupTrace ∧
      tr.count (Action.broadcast .update) = n + 1 ∧
      tr.count (Action.broadcast .draw) = 2 * (n + 1) ∧
      tr.count (Action.clockTick 30) = 2 * (n + 1) := by
  obtain ⟨n, -, -, -, htr⟩ :=
    run_char queue fuel 0 TickController.initState sf tr rfl h
  refine ⟨n, htr, ?_, ?_, ?_⟩
  · rw [htr, List.count_append,
      count_blocksTrace queue _ 1 count_bodyTrace_update n 0]
    have hc : cleanupTrace.count (Action.broadcast .update) = 0 := by decide
    omega
  · rw [htr, List.count_append,
      count_blocksTrace queue _ 2 count_bodyTrace_draw n 0]
    have hc : cleanupTrace.count (Action.broadcast .draw) = 0 := by decide
    omega
  · rw [htr, List.count_append,
      count_blocksTrace queue _ 2 count_bodyTrace_clockTick n 0]
    have hc : cleanupTrace.count (Action.clockTick 30) = 0 := by decide
    omega

/-- Event queues for the concrete C2 run: a QUIT arrives at the fifth
iteration's poll (index 4). -/
def q5 : Nat → List PygameEvt := fun i => if i = 4 then [.quitType] else []

/-- The C2 run itself: 5 iterations, then cleanup. -/
def c2out : TickController × List Action :=
  (TickController.Run q5 5 0 TickController.initState).getD
    (TickController.initState, [])

/-- Concrete instance of C2 (Scenario 3): with a QUIT at iteration 4 the
loop performs Update×5, Draw×10, 10 clock advances. -/
theorem run_loop_cadence_witness :
    TickController.Run q5 5 0 TickController.initState = some (c2out.1, c2out.2) ∧
    (∃ n, c2out.2 = blocksTrace q5 0 n ++ cleanupTrace ∧
      c2out.2.count (Action.broadcast .update) = n + 1 ∧
      c2out.2.count (Action.broadcast .draw) = 2 * (n + 1) ∧
      c2out.2.count (Action.clockTick 30) = 2 * (n + 1)) ∧
    c2out.2.count (Action.broadcast .update) = 5 ∧
    c2out.2.count (Action.broadcast .draw) = 10 :=
  ⟨rfl, run_loop_cadence q5 5 c2out.1 c2out.2 rfl, by decide, by decide⟩

/-- C3: every terminating run broadcasts QuitCleanup exactly once, and it
comes strictly after everything else — in particular after the last Draw
of the final iteration: the trace splits as `pre ++ cleanupTrace` with no
QuitCleanup broadcast in `pre` and every Draw broadcast (at least one
exists) in `pre`. -/
theorem quitcleanup_once_after_loop (queue : Nat → List PygameEvt) (fuel : Nat)
    (sf : TickController) (tr : List Action)
    (h : TickController.Run queue fuel 0 TickController.initState = some (sf, tr)) :
    tr.count (Action.broadcast .quitCleanup) = 1 ∧
    ∃ pre, tr = pre ++ cleanupTrace ∧
      Action.broadcast .quitCleanup ∉ pre ∧
      Action.broadcast .draw ∈ pre := by
  obtain ⟨n, -, -, -, htr⟩ :=
    run_char queue fuel 0 TickController.initState sf tr rfl h
  have h0 : (blocksTrace queue 0 n).count (Action.broadcast .quitCleanup) = 0 := by
    simpa using count_blocksTrace queue _ 0 count_bodyTrace_cleanup n 0
  constructor
  · rw [htr, List.count_append, h0]
    decide
  · refine ⟨blocksTrace queue 0 n, htr, ?_, ?_⟩
    · exact List.count_eq_zero.mp h0
    · have h2 : 0 < (blocksTrace queue 0 n).count (Action.broadcast .draw) := by
        rw [count_blocksTrace queue _ 2 count_bodyTrace_draw n 0]
        omega
      exact List.count_pos_iff.mp h2

/-- Event queue for the concrete C3 run: QUIT already pending at the very
first iteration. -/
def qFirst : Nat → List PygameEvt := fun _ => [.quitType]

/-- The C3 run: Quit during iteration 0, one full iteration, then cleanup. -/
def c3out : TickController × List Action :=
  (TickController.Run qFirst 1 0 TickController.initState).getD
    (TickController.initState, [])

/-- Concrete instance of C3 (Scenario 5): Quit arrives during the very
first iteration and QuitCleanup is still broadcast exactly once, last. -/
theorem quitcleanup_once_after_loop_witness :
    TickController.Run qFirst 1 0 TickController.initState
        = some (c3out.1, c3out.2) ∧
    (c3out.2.count (Action.broadcast .quitCleanup) = 1 ∧
      ∃ pre, c3out.2 = pre ++ cleanupTrace ∧
        Action.broadcast .quitCleanup ∉ pre ∧
        Action.broadcast .draw ∈ pre) :=
  ⟨rfl, quitcleanup_once_after_loop qFirst 1 c3out.1 c3out.2 rfl⟩

lemma blocksTrace_last (queue : Nat → List PygameEvt) :
    ∀ (n i : Nat), ∃ pre,
      blocksTrace queue i n = pre ++ bodyTrace (queue (i + n))
  | 0, i => ⟨[], by simp [blocksTrace]⟩
  | n + 1, i => by
      obtain ⟨pre, hp⟩ := blocksTrace_last queue n (i + 1)
      refine ⟨bodyTrace (queue i) ++ pre, ?_⟩
      rw [blocksTrace, hp, List.append_assoc,
        show i + 1 + n = i + (n + 1) by omega]

lemma mem_flatten_replicate_quit (a : Action) (n : Nat) (hn : 0 < n)
    (ha : a ∈ quitTrace) :
    a ∈ List.flatten (List.replicate n quitTrace) := by
  rcases n with _ | m
  · omega
  · rw [List.replicate_succ, List.flatten_cons]
    exact List.mem_append_left _ ha

lemma quit_mem_updateTrace (p : List PygameEvt) (hq : 0 < quitPosts p) :
    Action.broadcast .quit ∈ updateTrace p := by
  rw [updateTrace]
  refine List.mem_append_left _ (List.mem_append_right _ ?_)
  exact mem_flatten_replicate_quit _ _ hq (by decide)

/-- C4: Quit never aborts an iteration mid-tick.  In every terminating
run, the iteration during whose Update broadcast the Quit was delivered
(the final one) still completes: after that Update both Draw broadcasts
and both clock advances occur, and only then — at the next loop-condition
check — does the loop exit and post QuitCleanup. -/
theorem quit_does_not_abort_current_iteration (queue : Nat → List PygameEvt)
    (fuel : Nat) (sf : TickController) (tr : List Action)
    (h : TickController.Run queue fuel 0 TickController.initState = some (sf, tr)) :
    ∃ pre p, 0 < quitPosts p ∧
      Action.broadcast .quit ∈ updateTrace p ∧
      sf.running = false ∧
      tr = pre ++ (updateTrace p ++ (drawTrace ++ ([Action.clockTick 30]
        ++ (drawTrace ++ ([Action.clockTick 30] ++ cleanupTrace))))) := by
  obtain ⟨n, -, hq, hsf, htr⟩ :=
    run_char queue fuel 0 TickController.initState sf tr rfl h
  obtain ⟨pre, hp⟩ := blocksTrace_last queue n 0
  rw [show (0 : Nat) + n = n by omega] at hp
  refine ⟨pre, queue n, by simpa using hq, ?_, hsf, ?_⟩
  · exact quit_mem_updateTrace _ (by simpa using hq)
  · rw [htr, hp, bodyTrace]
    simp [List.append_assoc]

/-- Event queue for the concrete C4 run: the QUIT sits behind another
pygame event in the first iteration's poll. -/
def qBehind : Nat → List PygameEvt := fun i =>
  if i = 0 then [.otherType, .quitType] else []

/-- The C4 run. -/
def c4out : TickController × List Action :=
  (TickController.Run qBehind 1 0 TickController.initState).getD
    (TickController.initState, [])

/-- Concrete instance of C4: Quit is delivered during iteration 0's
Update, and that iteration still performs both Draws and both clock
advances before QuitCleanup. -/
theorem quit_does_not_abort_current_iteration_witness :
    TickController.Run qBehind 1 0 TickController.initState
        = some (c4out.1, c4out.2) ∧
    ∃ pre p, 0 < quitPosts p ∧
      Action.broadcast .quit ∈ updateTrace p ∧
      c4out.1.running = false ∧
      c4out.2 = pre ++ (updateTrace p ++ (drawTrace ++ ([Action.clockTick 30]
        ++ (drawTrace ++ ([Action.clockTick 30] ++ cleanupTrace))))) :=
  ⟨rfl, quit_does_not_abort_current_iteration qBehind 1 c4out.1 c4out.2 rfl⟩

/-- C8: the run-loop state is the single boolean `running`: it starts
true (`__init__`), only the delivery of a Quit event changes it (every
other event leaves the state untouched), Quit delivery sets it to false,
`Notify` never turns it back to true, and once false the loop is not
restartable — `Run` immediately posts only QuitCleanup and leaves the
flag false; every terminating run ends with the flag false. -/
theorem running_flag_lifecycle :
    TickController.initState.running = true ∧
    (∀ (s : TickController) (e : Event), e ≠ .quit → s.Notify e = s) ∧
    (∀ (s : TickController), s.Notify .quit = ⟨false⟩) ∧
    (∀ (s : TickController) (e : Event),
      (s.Notify e).running = true → s.running = true) ∧
    (∀ (queue : Nat → List PygameEvt) (fuel i : Nat) (s : TickController),
      s.running = false →
      TickController.Run queue fuel i s = some (s, cleanupTrace)) ∧
    (∀ (queue : Nat → List PygameEvt) (fuel : Nat) (sf : TickController)
        (tr : List Action),
      TickController.Run queue fuel 0 TickController.initState = some (sf, tr) →
      sf.running = false) := by
  refine ⟨rfl, ?_, fun s => rfl, ?_, ?_, ?_⟩
  · intro s e he
    simp [TickController.Notify, he]
  · intro s e h
    by_cases hq : e = .quit
    · subst hq
      simp [TickController.Notify] at h
    · simpa [TickController.Notify, hq] using h
  · exact fun queue fuel i s h => run_stopped queue fuel i s h
  · intro queue fuel sf tr h
    obtain ⟨n, -, -, h3, -⟩ :=
      run_char queue fuel 0 TickController.initState sf tr rfl h
    exact h3

/-- Concrete instance of C8: a Draw delivery leaves the flag alone, and a
stopped loop only posts QuitCleanup, never restarting. -/
theorem running_flag_lifecycle_witness :
    (TickController.Notify ⟨true⟩ .draw = ⟨true⟩) ∧
    (TickController.Run (fun _ => []) 3 7 ⟨false⟩
        = some (⟨false⟩, cleanupTrace)) :=
  ⟨running_flag_lifecycle.2.1 ⟨true⟩ .draw (by decide),
   running_flag_lifecycle.2.2.2.2.1 (fun _ => []) 3 7 ⟨false⟩ rfl⟩

/-- C10: `Post` is synchronously re-entrant.  When a Quit-producing poll
happens inside the Update broadcast, the nested `Post QuitEvent` made by
`PygameController.Notify` runs to completion within the outer call: the
trace the outer Update dispatch returns already contains the whole nested
Quit broadcast (its broadcast start and the spinner's `Notify` call), and
`TickController.running` is already false when the outer `Post UpdateEvent`
returns to the run loop. -/
theorem nested_quit_post_reentrant (pending : List PygameEvt)
    (s : TickController) (hq : 0 < quitPosts pending) :
    (SystemPost pending s .update).1.running = false ∧
    ∃ t, (SystemPost pending s .update).2
        = [Action.broadcast .update, Action.notify .pygamec .update] ++ t
            ++ [Action.notify .spinner .update, Action.notify .pygamev .update] ∧
      Action.broadcast .quit ∈ t ∧
      Action.notify .spinner .quit ∈ t := by
  constructor
  · rw [sysPost_update_state, if_neg (by omega)]
  · refine ⟨List.flatten (List.replicate (quitPosts pending) quitTrace),
      ?_, ?_, ?_⟩
    · rw [sysPost_update_trace, updateTrace]
    · exact mem_flatten_replicate_quit _ _ hq (by decide)
    · exact mem_flatten_replicate_quit _ _ hq (by decide)

/-- Concrete instance of C10: one pending QUIT while the loop is running. -/
theorem nested_quit_post_reentrant_witness :
    (SystemPost [.quitType] ⟨true⟩ .update).1.running = false ∧
    ∃ t, (SystemPost [.quitType] ⟨true⟩ .update).2
        = [Action.broadcast .update, Action.notify .pygamec .update] ++ t
            ++ [Action.notify .spinner .update, Action.notify .pygamev .update] ∧
      Action.broadcast .quit ∈ t ∧
      Action.notify .spinner .quit ∈ t :=
  nested_quit_post_reentrant [.quitType] ⟨true⟩ (by decide)

end Engine
